import Mathlib

/-!
Shallow embedding of `src/product_demos/Data-Science/mlops-end2end/02-mlops-advanced/
01_feature_engineering.py` (churn-prediction feature-engineering notebook).

A DataFrame row is modelled as an association list from column names to cell
values; a cell value is either missing (null/NaN), a string, or a number
(rationals stand in for doubles).  The per-row columnar transformations of the
notebook — `compute_service_features`, `clean_churn_features`, the
train/validate/test split `when`-chain, the label-table projection and the
`avg_price_increase` on-demand function — are translated directly from the
source; table-level metadata (NOT NULL / PRIMARY KEY constraints, semantic-type
annotations) and the guarded table drops are modelled as explicit state.
-/

namespace FeatureEng

/-- A cell value of a columnar table: missing (null / NaN), a string, or a
number (doubles are modelled exactly as rationals). -/
inductive Value where
  | null : Value
  | str : String → Value
  | num : ℚ → Value
deriving DecidableEq, Repr

/-- A DataFrame row: association list from column names to cell values. -/
abbrev Row := List (String × Value)

/-- Read a column of a row; a column absent from the row reads as null. -/
def getCol : Row → String → Value
  | [], _ => .null
  | (a, v) :: t, c => if a = c then v else getCol t c

/-- Whether the row has a column of the given name. -/
def hasCol : Row → String → Bool
  | [], _ => false
  | (a, _) :: t, c => a = c || hasCol t c

/-- Apply a function to the value of one column, in place (used for the
pandas column assignments / `astype` / `fillna` of the source, which rewrite
an existing column). A row without the column is left unchanged. -/
def updateCol : Row → String → (Value → Value) → Row
  | [], _, _ => []
  | (a, v) :: t, c, f => (a, if a = c then f v else v) :: updateCol t c f

/-- Spark `withColumn`: replace the column in place when present, otherwise
append it at the end of the schema. -/
def setCol (row : Row) (c : String) (v : Value) : Row :=
  if hasCol row c then updateCol row c (fun _ => v) else row ++ [(c, v)]

/-- Spark `select`: keep exactly the requested columns, in the given order. -/
def selectCols (row : Row) (cs : List String) : Row :=
  cs.map (fun c => (c, getCol row c))

/-- Spark `drop`: remove a column (no error when absent). -/
def dropCol : Row → String → Row
  | [], _ => []
  | (a, v) :: t, c => if a = c then dropCol t c else (a, v) :: dropCol t c

/-- The column names of a row, in order. -/
def colNames (row : Row) : List String := row.map (·.1)

/-! ### Notebook constants (source lines 62–65, 165) -/

/-- `primary_key = "customer_id"` -/
def primary_key : String := "customer_id"

/-- `timestamp_col = "transaction_ts"` -/
def timestamp_col : String := "transaction_ts"

/-- `label_col = "churn"` -/
def label_col : String := "churn"

/-- `train_ratio, val_ratio, test_ratio = 0.7, 0.2, 0.1` -/
def train_ratio : ℚ := 7/10

/-- `train_ratio, val_ratio, test_ratio = 0.7, 0.2, 0.1` -/
def val_ratio : ℚ := 2/10

/-- `train_ratio, val_ratio, test_ratio = 0.7, 0.2, 0.1` -/
def test_ratio : ℚ := 1/10

/-! ### `compute_service_features` (source lines 72–85) -/

/-- The six optional-service columns passed to the `num_optional_services`
pandas UDF. -/
def serviceCols : List String :=
  ["online_security", "online_backup", "device_protection", "tech_support",
   "streaming_tv", "streaming_movies"]

/-- Elementwise `(s == "Yes").astype('double')` of the pandas UDF: 1.0 when the
cell equals the string "Yes", otherwise 0.0 (a NaN/null or any other value
compares unequal to "Yes" and contributes 0.0). -/
def yesIndicator (v : Value) : ℚ := if v = .str "Yes" then 1 else 0

/-- `sum(map(lambda s: (s == "Yes").astype('double'), cols))` over the six
service columns of one row. -/
def num_optional_services (row : Row) : ℚ :=
  (serviceCols.map (fun c => yesIndicator (getCol row c))).sum

/-- `compute_service_features`: `inputDF.withColumn("num_optional_services",
num_optional_services(...))`, per row. -/
def compute_service_features (row : Row) : Row :=
  setCol row "num_optional_services" (.num (num_optional_services row))

/-! ### `clean_churn_features` (source lines 99–121) -/

/-- pandas `.map({1 : "Yes", 0 : "No"})`: values outside the dictionary keys
(including missing ones) are mapped to missing. -/
def mapSeniorCitizen (v : Value) : Value :=
  match v with
  | .num q => if q = 1 then .str "Yes" else if q = 0 then .str "No" else .null
  | _ => .null

/-- Best-effort parse of a decimal string (optional sign, digits, optional
fractional part), used to model the engine's string-to-double cast; `none` on
anything that is not a plain decimal numeral. -/
def parseDecimal (s : String) : Option ℚ :=
  let chars := s.toList
  let (sign, rest) :=
    match chars with
    | '-' :: t => ((-1 : ℚ), t)
    | '+' :: t => ((1 : ℚ), t)
    | t => ((1 : ℚ), t)
  let (intPart, rest') := (rest.takeWhile Char.isDigit, rest.dropWhile Char.isDigit)
  let (fracPart, rest'') :=
    match rest' with
    | '.' :: t => (t.takeWhile Char.isDigit, t.dropWhile Char.isDigit)
    | t => ([], t)
  if rest'' = [] ∧ (intPart ≠ [] ∨ fracPart ≠ []) then
    let intVal : ℚ := intPart.foldl (fun acc c => 10 * acc + (c.toNat - '0'.toNat : ℕ)) 0
    let fracVal : ℚ :=
      (fracPart.foldl (fun acc c => 10 * acc + (c.toNat - '0'.toNat : ℕ)) 0 : ℚ)
        / (10 : ℚ) ^ fracPart.length
    some (sign * (intVal + fracVal))
  else none

/-- `.astype({"total_charges": "double"})`: numbers pass through, strings are
coerced best-effort (null when not numeric), missing stays missing. -/
def castDouble (v : Value) : Value :=
  match v with
  | .num q => .num q
  | .str s => match parseDecimal s with
              | some q => .num q
              | none => .null
  | .null => .null

/-- `.astype({"senior_citizen": "string"})`: strings pass through, missing
stays missing, numbers are rendered as text. -/
def castString (v : Value) : Value :=
  match v with
  | .null => .null
  | .str s => .str s
  | .num q => .str (toString q)

/-- Whether a cell holds a number. -/
def isNum : Value → Bool
  | .num _ => true
  | _ => false

/-- Whether a cell holds a string or is missing (the inhabitants of a string
column). -/
def isStrOrNull : Value → Bool
  | .str _ => true
  | .null => true
  | .num _ => false

/-- `.fillna({c: 0.0})`: replace a missing value of column `c` by 0.0. -/
def fillnaZero (row : Row) (c : String) : Row :=
  updateCol row c (fun v => if v = .null then .num 0 else v)

/-- `clean_churn_features` (values): remap `senior_citizen` through
`{1: "Yes", 0: "No"}`, cast `total_charges` to double and `senior_citizen` to
string, then fill missing `tenure`, `monthly_charges`, `total_charges`
with 0.0.  The final `withMetadata` calls touch only column metadata, which is
modelled separately by `cleanMetadata`. -/
def clean_churn_features (row : Row) : Row :=
  let r1 := updateCol row "senior_citizen" mapSeniorCitizen
  let r2 := updateCol r1 "total_charges" castDouble
  let r3 := updateCol r2 "senior_citizen" castString
  let r4 := fillnaZero r3 "tenure"
  let r5 := fillnaZero r4 "monthly_charges"
  fillnaZero r5 "total_charges"

/-- Per-column semantic-type annotation (`spark.contentAnnotation.semanticType`). -/
def withMetadata (meta : String → Option String) (c : String) (t : String) :
    String → Option String :=
  fun c' => if c' = c then some t else meta c'

/-- The two `withMetadata` calls of `clean_churn_features`: tag the primary key
as "native" and `num_optional_services` as "numeric". -/
def cleanMetadata (meta : String → Option String) : String → Option String :=
  withMetadata (withMetadata meta primary_key "native") "num_optional_services" "numeric"

/-! ### Split labelling and the label table (source lines 165–178) -/

/-- The `when`-chain of source lines 170–172, applied to the per-row draw
`random`: `train` when `random < train_ratio`, else `validate` when
`random < train_ratio + val_ratio`, otherwise `test`. -/
def splitLabel (r : ℚ) : String :=
  if r < train_ratio then "train"
  else if r < train_ratio + val_ratio then "validate"
  else "test"

/-- One row of the label table (source lines 167–173): select
`(primary_key, timestamp_col, label_col)`, add the `random` draw, add the
`split` label, then drop `random`.  `r` is the row's draw from `F.rand(seed=42)`,
supplied by the execution engine. -/
def labelTableRow (row : Row) (r : ℚ) : Row :=
  dropCol
    (setCol (setCol (selectCols row [primary_key, timestamp_col, label_col])
        "random" (.num r))
      "split" (.str (splitLabel r)))
    "random"

/-- The full feature pipeline for one row (source lines 146–147): clean the
computed service features and append the scoring timestamp. -/
def pipelineRow (row : Row) (ts : ℚ) : Row :=
  setCol (clean_churn_features (compute_service_features row)) timestamp_col (.num ts)

/-- `churn_featuresDF = churn_features_n_predsDF.drop(label_col)` (source
line 178): the rows handed to the feature store. -/
def featureTableRow (row : Row) (ts : ℚ) : Row :=
  dropCol (pipelineRow row ts) label_col

/-! ### Label-table constraints (source lines 187–189) -/

/-- Constraint metadata of a catalog table: which columns are NOT NULL and the
declared primary-key constraint, if any. -/
structure TableConstraints where
  notNull : List String
  primaryKey : Option (List String)
deriving DecidableEq, Repr

/-- `ALTER TABLE ... ALTER COLUMN c SET NOT NULL` -/
def alterSetNotNull (t : TableConstraints) (c : String) : TableConstraints :=
  { t with notNull := t.notNull ++ [c] }

/-- `ALTER TABLE ... ADD CONSTRAINT ..._pk PRIMARY KEY(cs)` -/
def addPrimaryKeyConstraint (t : TableConstraints) (cs : List String) :
    TableConstraints :=
  { t with primaryKey := some cs }

/-- The three `spark.sql` ALTER statements applied to the label table, in
source order: NOT NULL on the primary key, NOT NULL on the timestamp, then the
composite primary-key constraint. -/
def labelTableConstraints : TableConstraints :=
  addPrimaryKeyConstraint
    (alterSetNotNull (alterSetNotNull ⟨[], none⟩ primary_key) timestamp_col)
    [primary_key, timestamp_col]

/-! ### `avg_price_increase` (source lines 294–305) -/

/-- Body of the registered SQL function `avg_price_increase`:
`if tenure_in > 0: return monthly_charges_in - total_charges_in/tenure_in
else: return 0`. -/
def avg_price_increase (monthly_charges_in tenure_in total_charges_in : ℚ) : ℚ :=
  if tenure_in > 0 then monthly_charges_in - total_charges_in / tenure_in else 0

/-! ### Guarded table drops (source lines 234–261) -/

/-- The catalog state the pre-drop steps act on: whether the online table and
the feature table currently exist. -/
structure CatalogState where
  onlineExists : Bool
  featureExists : Bool
deriving DecidableEq, Repr

/-- Outcome of one guarded drop step: the table was dropped, or the drop
failure was caught and reported (the message printed by the `except` arm). -/
inductive DropOutcome where
  | dropped : DropOutcome
  | caught : String → DropOutcome
deriving DecidableEq, Repr

/-- Body of the first `try` block (source lines 236–240): `w.online_tables.get`
raises when the online table does not exist; otherwise the table is deleted. -/
def onlineDropBody (s : CatalogState) : Except String CatalogState :=
  if s.onlineExists then .ok { s with onlineExists := false }
  else .error "online table does not exist"

/-- The `try/except Exception` around the online-table drop (source lines
234–243): a failure is caught and reported via `pprint(e)`, leaving the state
unchanged, and execution continues. -/
def onlineDropStep (s : CatalogState) : CatalogState × DropOutcome :=
  match onlineDropBody s with
  | .ok s' => (s', .dropped)
  | .error e => (s, .caught e)

/-- Body of the second `try` block (source lines 249–256): `fe.drop_table`
raises `ValueError` when the feature table does not exist; otherwise the
feature table and its underlying delta table are dropped. -/
def featureDropBody (s : CatalogState) : Except String CatalogState :=
  if s.featureExists then .ok { s with featureExists := false }
  else .error "ValueError"

/-- The `try/except ValueError` around the feature-table drop (source lines
247–261): the failure is caught and the "doesn't exist" message printed,
leaving the state unchanged, and execution continues. -/
def featureDropStep (s : CatalogState) : CatalogState × DropOutcome :=
  match featureDropBody s with
  | .ok s' => (s', .dropped)
  | .error _ =>
      (s, .caught "Feature Table churn_feature_table doesn't exist")

/-- Both pre-drop steps in source order; a total function: no exception
escapes, the pipeline always reaches the subsequent `create_table` call. -/
def preDropPhase (s : CatalogState) : CatalogState × DropOutcome × DropOutcome :=
  let (s1, o1) := onlineDropStep s
  let (s2, o2) := featureDropStep s1
  (s2, o1, o2)

/-! ### Basic lemmas about the row operations -/

theorem getCol_updateCol_ne (row : Row) (c c' : String) (f : Value → Value)
    (h : c' ≠ c) : getCol (updateCol row c f) c' = getCol row c' := by
  induction row with
  | nil => rfl
  | cons p t ih =>
    obtain ⟨a, v⟩ := p
    by_cases hac' : a = c'
    · subst hac'
      simp [updateCol, getCol, h]
    · simp [updateCol, getCol, hac', ih]

theorem getCol_updateCol_self (row : Row) (c : String) (f : Value → Value) :
    getCol (updateCol row c f) c
      = if hasCol row c then f (getCol row c) else .null := by
  induction row with
  | nil => rfl
  | cons p t ih =>
    obtain ⟨a, v⟩ := p
    by_cases hac : a = c
    · simp [updateCol, getCol, hasCol, hac]
    · simp [updateCol, getCol, hasCol, hac, ih]

theorem hasCol_updateCol (row : Row) (c c' : String) (f : Value → Value) :
    hasCol (updateCol row c f) c' = hasCol row c' := by
  induction row with
  | nil => rfl
  | cons p t ih =>
    obtain ⟨a, v⟩ := p
    simp [updateCol, hasCol, ih]

theorem colNames_updateCol (row : Row) (c : String) (f : Value → Value) :
    colNames (updateCol row c f) = colNames row := by
  induction row with
  | nil => rfl
  | cons p t ih =>
    obtain ⟨a, v⟩ := p
    simp only [updateCol, colNames, List.map_cons]
    exact congrArg _ ih

theorem getCol_eq_null_of_not_hasCol (row : Row) (c : String)
    (h : hasCol row c = false) : getCol row c = .null := by
  induction row with
  | nil => rfl
  | cons p t ih =>
    obtain ⟨a, v⟩ := p
    simp only [hasCol, Bool.or_eq_false_iff, decide_eq_false_iff_not] at h
    simp only [getCol, if_neg h.1]
    exact ih h.2

theorem getCol_append_of_not_hasCol (row : Row) (c : String) (v : Value)
    (h : hasCol row c = false) : getCol (row ++ [(c, v)]) c = v := by
  induction row with
  | nil => simp [getCol]
  | cons p t ih =>
    obtain ⟨a, w⟩ := p
    simp only [hasCol, Bool.or_eq_false_iff, decide_eq_false_iff_not] at h
    simp only [List.cons_append, getCol, if_neg h.1]
    exact ih h.2

theorem getCol_setCol_self (row : Row) (c : String) (v : Value) :
    getCol (setCol row c v) c = v := by
  unfold setCol
  by_cases h : hasCol row c
  · simp [h, getCol_updateCol_self]
  · simp only [Bool.not_eq_true] at h
    simp only [h, Bool.false_eq_true, if_false]
    exact getCol_append_of_not_hasCol row c v h

theorem getCol_setCol_ne (row : Row) (c c' : String) (v : Value)
    (h : c' ≠ c) : getCol (setCol row c v) c' = getCol row c' := by
  unfold setCol
  by_cases hc : hasCol row c
  · simp [hc, getCol_updateCol_ne row c c' _ h]
  · simp only [Bool.not_eq_true] at hc
    simp only [hc, Bool.false_eq_true, if_false]
    induction row with
    | nil => simp [getCol, if_neg (fun h' : c = c' => h h'.symm)]
    | cons p t ih =>
      obtain ⟨a, w⟩ := p
      simp only [hasCol, Bool.or_eq_false_iff, decide_eq_false_iff_not] at hc
      by_cases hac : a = c'
      · simp [getCol, hac]
      · simp only [List.cons_append, getCol, if_neg hac]
        exact ih hc.2

theorem getCol_dropCol_ne (row : Row) (c c' : String) (h : c' ≠ c) :
    getCol (dropCol row c) c' = getCol row c' := by
  induction row with
  | nil => rfl
  | cons p t ih =>
    obtain ⟨a, v⟩ := p
    by_cases hac : a = c
    · subst hac
      have hac' : ¬a = c' := fun h' => h h'.symm
      simp [dropCol, getCol, hac', ih]
    · simp only [dropCol, if_neg hac, getCol]
      by_cases hac' : a = c'
      · simp [hac']
      · simp [hac', ih]

theorem not_mem_colNames_dropCol (row : Row) (c : String) :
    c ∉ colNames (dropCol row c) := by
  induction row with
  | nil => simp [colNames, dropCol]
  | cons p t ih =>
    obtain ⟨a, v⟩ := p
    by_cases hac : a = c
    · simpa [dropCol, hac] using ih
    · have hca : ¬c = a := fun h => hac h.symm
      simp only [dropCol, if_neg hac, colNames, List.map_cons, List.mem_cons]
      rintro (h | h)
      · exact hca h
      · exact ih (by simpa [colNames] using h)

/-! ### Supporting lemmas -/

theorem sum_yesIndicator (row : Row) (cs : List String) :
    (cs.map (fun c => yesIndicator (getCol row c))).sum
      = ((cs.filter (fun c => getCol row c = .str "Yes")).length : ℚ) := by
  induction cs with
  | nil => simp
  | cons c t ih =>
    by_cases h : getCol row c = .str "Yes"
    · rw [List.map_cons, List.sum_cons, ih]
      have hy : yesIndicator (getCol row c) = 1 := if_pos h
      rw [hy, List.filter_cons, if_pos (by simpa using h), List.length_cons]
      push_cast
      ring
    · rw [List.map_cons, List.sum_cons, ih]
      have hy : yesIndicator (getCol row c) = 0 := if_neg h
      rw [hy, List.filter_cons, if_neg (by simpa using h)]
      ring

theorem castDouble_num_or_null (v : Value) :
    castDouble v = .null ∨ ∃ q, castDouble v = .num q := by
  cases v with
  | null => exact .inl rfl
  | num q => exact .inr ⟨q, rfl⟩
  | str s =>
    cases hp : parseDecimal s with
    | none => exact .inl (by simp [castDouble, hp])
    | some q => exact .inr ⟨q, by simp [castDouble, hp]⟩

/-! ### Claim theorems -/

/-- C2: for every input row, `compute_service_features` produces
`num_optional_services` equal to the number of the six tracked service columns
whose value equals "Yes"; the count lies in [0, 6]; and any value other than
"Yes" (unexpected or missing) contributes 0, with no error possible (the
function is total). -/
theorem compute_service_features_spec (row : Row) :
    getCol (compute_service_features row) "num_optional_services"
      = .num ((serviceCols.filter (fun c => getCol row c = .str "Yes")).length)
    ∧ (0 : ℚ) ≤ num_optional_services row
    ∧ num_optional_services row ≤ 6
    ∧ (∀ c, getCol row c ≠ .str "Yes" → yesIndicator (getCol row c) = 0) := by
  refine ⟨?_, ?_, ?_, ?_⟩
  · rw [compute_service_features, getCol_setCol_self, num_optional_services,
      sum_yesIndicator]
  · rw [num_optional_services, sum_yesIndicator]
    positivity
  · rw [num_optional_services, sum_yesIndicator]
    have hle : (serviceCols.filter (fun c => getCol row c = .str "Yes")).length
        ≤ serviceCols.length := List.length_filter_le _ _
    have h6 : serviceCols.length = 6 := rfl
    exact_mod_cast h6 ▸ hle
  · intro c h
    simp [yesIndicator, h]

/-- Witness for C2 on a concrete row with three services enabled, one
disabled, one missing and one carrying an unexpected value. -/
theorem compute_service_features_spec_witness :
    getCol (compute_service_features
      [("online_security", Value.str "Yes"), ("online_backup", Value.str "No"),
       ("device_protection", Value.null), ("tech_support", Value.str "Yes"),
       ("streaming_tv", Value.str "Maybe"),
       ("streaming_movies", Value.str "Yes")])
      "num_optional_services" = Value.num 3 := by
  have h := (compute_service_features_spec
    [("online_security", Value.str "Yes"), ("online_backup", Value.str "No"),
     ("device_protection", Value.null), ("tech_support", Value.str "Yes"),
     ("streaming_tv", Value.str "Maybe"),
     ("streaming_movies", Value.str "Yes")]).1
  rw [h]
  decide

/-- C3: the split `when`-chain assigns, to any draw `r ∈ [0,1)`, exactly one
label from {train, validate, test}: "train" iff `r < train_ratio` (0.7), else
"validate" iff `r < train_ratio + val_ratio` (0.9), else "test"; the three
cases are exhaustive and mutually exclusive. -/
theorem splitLabel_spec (r : ℚ) (h0 : 0 ≤ r) (h1 : r < 1) :
    (splitLabel r = "train" ∨ splitLabel r = "validate" ∨ splitLabel r = "test")
    ∧ (splitLabel r = "train" ↔ r < train_ratio)
    ∧ (splitLabel r = "validate" ↔ (train_ratio ≤ r ∧ r < train_ratio + val_ratio))
    ∧ (splitLabel r = "test" ↔ train_ratio + val_ratio ≤ r)
    ∧ ¬(splitLabel r = "train" ∧ splitLabel r = "validate")
    ∧ ¬(splitLabel r = "train" ∧ splitLabel r = "test")
    ∧ ¬(splitLabel r = "validate" ∧ splitLabel r = "test") := by
  simp only [splitLabel, train_ratio, val_ratio]
  by_cases ha : r < 7/10
  · rw [if_pos ha]
    refine ⟨Or.inl rfl,
      ⟨fun _ => ha, fun _ => rfl⟩,
      ⟨fun h => absurd h (by decide), fun h => absurd ha (not_lt.mpr h.1)⟩,
      ⟨fun h => absurd h (by decide),
       fun h => absurd ha (not_lt.mpr (by linarith))⟩,
      ?_, ?_, ?_⟩
    · rintro ⟨-, h⟩; exact absurd h (by decide)
    · rintro ⟨-, h⟩; exact absurd h (by decide)
    · rintro ⟨h, -⟩; exact absurd h (by decide)
  · by_cases hb : r < 7/10 + 2/10
    · rw [if_neg ha, if_pos hb]
      refine ⟨Or.inr (Or.inl rfl),
        ⟨fun h => absurd h (by decide), fun h => absurd h ha⟩,
        ⟨fun _ => ⟨le_of_not_lt ha, hb⟩, fun _ => rfl⟩,
        ⟨fun h => absurd h (by decide), fun h => absurd hb (not_lt.mpr h)⟩,
        ?_, ?_, ?_⟩
      · rintro ⟨h, -⟩; exact absurd h (by decide)
      · rintro ⟨h, -⟩; exact absurd h (by decide)
      · rintro ⟨-, h⟩; exact absurd h (by decide)
    · rw [if_neg ha, if_neg hb]
      refine ⟨Or.inr (Or.inr rfl),
        ⟨fun h => absurd h (by decide), fun h => absurd h ha⟩,
        ⟨fun h => absurd h (by decide), fun h => absurd h.2 hb⟩,
        ⟨fun _ => le_of_not_lt hb, fun _ => rfl⟩,
        ?_, ?_, ?_⟩
      · rintro ⟨h, -⟩; exact absurd h (by decide)
      · rintro ⟨h, -⟩; exact absurd h (by decide)
      · rintro ⟨h, -⟩; exact absurd h (by decide)

/-- Witness for C3 at the concrete draw r = 1/2. -/
theorem splitLabel_spec_witness :
    (0 : ℚ) ≤ 1/2 ∧ (1/2 : ℚ) < 1 ∧ splitLabel (1/2) = "train" := by
  refine ⟨by norm_num, by norm_num, ?_⟩
  exact (splitLabel_spec (1/2) (by norm_num) (by norm_num)).2.1.mpr
    (by unfold train_ratio; norm_num)

/-- C5: the registered on-demand function `avg_price_increase` returns
`monthly_charges − total_charges/tenure` when `tenure > 0` and 0 otherwise;
in the dividing branch the divisor is provably nonzero. -/
theorem avg_price_increase_spec
    (monthly_charges_in tenure_in total_charges_in : ℚ) :
    (tenure_in > 0 →
        avg_price_increase monthly_charges_in tenure_in total_charges_in
          = monthly_charges_in - total_charges_in / tenure_in
        ∧ tenure_in ≠ 0)
    ∧ (¬ tenure_in > 0 →
        avg_price_increase monthly_charges_in tenure_in total_charges_in = 0) := by
  constructor
  · intro h
    exact ⟨by rw [avg_price_increase, if_pos h], ne_of_gt h⟩
  · intro h
    rw [avg_price_increase, if_neg h]

/-- Witness for C5 at (monthly, tenure, total) = (50, 10, 300). -/
theorem avg_price_increase_spec_witness :
    (10 : ℚ) > 0 ∧ avg_price_increase 50 10 300 = 50 - 300 / 10 := by
  refine ⟨by norm_num, ?_⟩
  exact ((avg_price_increase_spec 50 10 300).1 (by norm_num)).1

/-! ### How `clean_churn_features` reads back on each touched column -/

theorem getCol_clean_senior (row : Row)
    (h : hasCol row "senior_citizen" = true) :
    getCol (clean_churn_features row) "senior_citizen"
      = castString (mapSeniorCitizen (getCol row "senior_citizen")) := by
  unfold clean_churn_features fillnaZero
  rw [getCol_updateCol_ne _ _ _ _ (by decide),
      getCol_updateCol_ne _ _ _ _ (by decide),
      getCol_updateCol_ne _ _ _ _ (by decide),
      getCol_updateCol_self, hasCol_updateCol, hasCol_updateCol,
      getCol_updateCol_ne _ _ _ _ (by decide),
      getCol_updateCol_self, h]
  simp

theorem getCol_clean_tenure (row : Row) (h : hasCol row "tenure" = true) :
    getCol (clean_churn_features row) "tenure"
      = if getCol row "tenure" = Value.null then Value.num 0
        else getCol row "tenure" := by
  unfold clean_churn_features fillnaZero
  rw [getCol_updateCol_ne _ _ _ _ (by decide),
      getCol_updateCol_ne _ _ _ _ (by decide),
      getCol_updateCol_self,
      hasCol_updateCol, hasCol_updateCol, hasCol_updateCol, h,
      getCol_updateCol_ne _ _ _ _ (by decide),
      getCol_updateCol_ne _ _ _ _ (by decide),
      getCol_updateCol_ne _ _ _ _ (by decide)]
  simp

theorem getCol_clean_monthly (row : Row)
    (h : hasCol row "monthly_charges" = true) :
    getCol (clean_churn_features row) "monthly_charges"
      = if getCol row "monthly_charges" = Value.null then Value.num 0
        else getCol row "monthly_charges" := by
  unfold clean_churn_features fillnaZero
  rw [getCol_updateCol_ne _ _ _ _ (by decide),
      getCol_updateCol_self,
      hasCol_updateCol, hasCol_updateCol, hasCol_updateCol, hasCol_updateCol, h,
      getCol_updateCol_ne _ _ _ _ (by decide),
      getCol_updateCol_ne _ _ _ _ (by decide),
      getCol_updateCol_ne _ _ _ _ (by decide),
      getCol_updateCol_ne _ _ _ _ (by decide)]
  simp

theorem getCol_clean_total (row : Row)
    (h : hasCol row "total_charges" = true) :
    getCol (clean_churn_features row) "total_charges"
      = if castDouble (getCol row "total_charges") = Value.null then Value.num 0
        else castDouble (getCol row "total_charges") := by
  unfold clean_churn_features fillnaZero
  rw [getCol_updateCol_self,
      hasCol_updateCol, hasCol_updateCol, hasCol_updateCol, hasCol_updateCol,
      hasCol_updateCol, h,
      getCol_updateCol_ne _ _ _ _ (by decide),
      getCol_updateCol_ne _ _ _ _ (by decide),
      getCol_updateCol_ne _ _ _ _ (by decide),
      getCol_updateCol_self, hasCol_updateCol, h,
      getCol_updateCol_ne _ _ _ _ (by decide)]
  simp

/-- C4: for every row of the input schema (the three billing columns present;
`tenure` and `monthly_charges` of numeric type), after `clean_churn_features`
the columns `tenure`, `monthly_charges` and `total_charges` are never
null/missing: each holds a number, equal to 0.0 whenever the original value
was absent, and equal to the (numeric coercion of the) original value
otherwise. -/
theorem clean_churn_features_fills_spec (row : Row)
    (ht : hasCol row "tenure" = true)
    (hm : hasCol row "monthly_charges" = true)
    (hc : hasCol row "total_charges" = true)
    (htv : getCol row "tenure" = Value.null ∨ isNum (getCol row "tenure") = true)
    (hmv : getCol row "monthly_charges" = Value.null
        ∨ isNum (getCol row "monthly_charges") = true) :
    (isNum (getCol (clean_churn_features row) "tenure") = true
      ∧ (getCol row "tenure" = Value.null →
          getCol (clean_churn_features row) "tenure" = Value.num 0)
      ∧ (∀ q, getCol row "tenure" = Value.num q →
          getCol (clean_churn_features row) "tenure" = Value.num q))
    ∧ (isNum (getCol (clean_churn_features row) "monthly_charges") = true
      ∧ (getCol row "monthly_charges" = Value.null →
          getCol (clean_churn_features row) "monthly_charges" = Value.num 0)
      ∧ (∀ q, getCol row "monthly_charges" = Value.num q →
          getCol (clean_churn_features row) "monthly_charges" = Value.num q))
    ∧ (isNum (getCol (clean_churn_features row) "total_charges") = true
      ∧ (getCol row "total_charges" = Value.null →
          getCol (clean_churn_features row) "total_charges" = Value.num 0)
      ∧ (∀ q, castDouble (getCol row "total_charges") = Value.num q →
          getCol (clean_churn_features row) "total_charges" = Value.num q)) := by
  rw [getCol_clean_tenure row ht, getCol_clean_monthly row hm,
      getCol_clean_total row hc]
  refine ⟨⟨?_, ?_, ?_⟩, ⟨?_, ?_, ?_⟩, ⟨?_, ?_, ?_⟩⟩
  · rcases htv with h | h
    · simp [h, isNum]
    · cases hval : getCol row "tenure" <;> rw [hval] at h <;>
        simp_all [isNum]
  · intro h; rw [if_pos h]
  · intro q hq; rw [hq]; simp
  · rcases hmv with h | h
    · simp [h, isNum]
    · cases hval : getCol row "monthly_charges" <;> rw [hval] at h <;>
        simp_all [isNum]
  · intro h; rw [if_pos h]
  · intro q hq; rw [hq]; simp
  · rcases castDouble_num_or_null (getCol row "total_charges") with h | ⟨q, h⟩
    · simp [h, isNum]
    · rw [h]; simp [isNum]
  · intro h
    have hnull : castDouble (getCol row "total_charges") = Value.null := by
      rw [h]; rfl
    rw [if_pos hnull]
  · intro q hq; rw [hq]; simp

/-- Witness for C4 on a concrete row: `tenure` missing, `monthly_charges`
numeric, `total_charges` ingested as the text "100.5". -/
theorem clean_churn_features_fills_spec_witness :
    hasCol [("senior_citizen", Value.num 1), ("tenure", Value.null),
        ("monthly_charges", Value.num 5), ("total_charges", Value.str "100.5")]
      "tenure" = true
    ∧ (getCol [("senior_citizen", Value.num 1), ("tenure", Value.null),
        ("monthly_charges", Value.num 5), ("total_charges", Value.str "100.5")]
        "tenure" = Value.null
       → getCol (clean_churn_features
          [("senior_citizen", Value.num 1), ("tenure", Value.null),
           ("monthly_charges", Value.num 5), ("total_charges", Value.str "100.5")])
          "tenure" = Value.num 0) := by
  refine ⟨by decide, ?_⟩
  exact (clean_churn_features_fills_spec
    [("senior_citizen", Value.num 1), ("tenure", Value.null),
     ("monthly_charges", Value.num 5), ("total_charges", Value.str "100.5")]
    (by decide) (by decide) (by decide) (Or.inl (by decide))
    (Or.inr (by decide))).1.2.1

/-- C6: `clean_churn_features` remaps the numeric `senior_citizen` indicator:
value 1 becomes the string "Yes", value 0 becomes the string "No", and the
resulting column is string-typed (every output value is a string or null). -/
theorem clean_senior_citizen_remap_spec (row : Row)
    (h : hasCol row "senior_citizen" = true) :
    (getCol row "senior_citizen" = Value.num 1 →
        getCol (clean_churn_features row) "senior_citizen" = Value.str "Yes")
    ∧ (getCol row "senior_citizen" = Value.num 0 →
        getCol (clean_churn_features row) "senior_citizen" = Value.str "No")
    ∧ isStrOrNull (getCol (clean_churn_features row) "senior_citizen") = true := by
  rw [getCol_clean_senior row h]
  refine ⟨?_, ?_, ?_⟩
  · intro hv; rw [hv]; simp [mapSeniorCitizen, castString]
  · intro hv; rw [hv]; norm_num [mapSeniorCitizen, castString]
  · cases mapSeniorCitizen (getCol row "senior_citizen") <;> rfl

/-- Witness for C6 on concrete rows with `senior_citizen` = 1 and = 0. -/
theorem clean_senior_citizen_remap_spec_witness :
    hasCol [("senior_citizen", Value.num 1)] "senior_citizen" = true
    ∧ getCol (clean_churn_features [("senior_citizen", Value.num 1)])
        "senior_citizen" = Value.str "Yes"
    ∧ getCol (clean_churn_features [("senior_citizen", Value.num 0)])
        "senior_citizen" = Value.str "No" := by
  refine ⟨by decide, ?_, ?_⟩
  · exact (clean_senior_citizen_remap_spec [("senior_citizen", Value.num 1)]
      (by decide)).1 (by decide)
  · exact (clean_senior_citizen_remap_spec [("senior_citizen", Value.num 0)]
      (by decide)).2.1 (by decide)

/-- C9: for every row whose `senior_citizen` value is neither 0 nor 1
(including an already-missing value), `clean_churn_features` yields a
null/missing `senior_citizen` — the remap sends unmapped values to missing and
the fill step covers only the three billing columns — and no error is raised
(the function is total). -/
theorem clean_senior_citizen_unmapped_spec (row : Row)
    (h : hasCol row "senior_citizen" = true)
    (h0 : getCol row "senior_citizen" ≠ Value.num 0)
    (h1 : getCol row "senior_citizen" ≠ Value.num 1) :
    getCol (clean_churn_features row) "senior_citizen" = Value.null := by
  rw [getCol_clean_senior row h]
  cases hv : getCol row "senior_citizen" with
  | null => rfl
  | str s => rfl
  | num q =>
    rw [hv] at h0 h1
    have hq0 : q ≠ 0 := fun hq => h0 (by rw [hq])
    have hq1 : q ≠ 1 := fun hq => h1 (by rw [hq])
    simp [mapSeniorCitizen, castString, hq0, hq1]

/-- Witness for C9 on a concrete row with `senior_citizen` = 2. -/
theorem clean_senior_citizen_unmapped_spec_witness :
    hasCol [("senior_citizen", Value.num 2)] "senior_citizen" = true
    ∧ getCol [("senior_citizen", Value.num 2)] "senior_citizen" ≠ Value.num 0
    ∧ getCol [("senior_citizen", Value.num 2)] "senior_citizen" ≠ Value.num 1
    ∧ getCol (clean_churn_features [("senior_citizen", Value.num 2)])
        "senior_citizen" = Value.null := by
  refine ⟨by decide, by decide, by decide, ?_⟩
  exact clean_senior_citizen_unmapped_spec [("senior_citizen", Value.num 2)]
    (by decide) (by decide) (by decide)

theorem colNames_setCol (row : Row) (c : String) (v : Value) :
    colNames (setCol row c v)
      = if hasCol row c then colNames row else colNames row ++ [c] := by
  unfold setCol
  by_cases h : hasCol row c
  · simp [h, colNames_updateCol]
  · simp only [Bool.not_eq_true] at h
    simp [h, colNames]

/-- C7: the persisted label table has exactly the columns
(primary_key, timestamp, churn, split) — the intermediate `random` column is
dropped — with both key columns declared NOT NULL and a composite primary-key
constraint on (primary_key, timestamp); and the feature table handed to the
feature store contains no churn label column. -/
theorem label_and_feature_table_shape_spec (row : Row) (r ts : ℚ) :
    colNames (labelTableRow row r)
      = [primary_key, timestamp_col, label_col, "split"]
    ∧ "random" ∉ colNames (labelTableRow row r)
    ∧ labelTableConstraints.notNull = [primary_key, timestamp_col]
    ∧ labelTableConstraints.primaryKey = some [primary_key, timestamp_col]
    ∧ label_col ∉ colNames (featureTableRow row ts) := by
  have h1 : colNames (labelTableRow row r)
      = [primary_key, timestamp_col, label_col, "split"] := by
    simp [labelTableRow, selectCols, setCol, hasCol, updateCol, dropCol,
      colNames, primary_key, timestamp_col, label_col]
  refine ⟨h1, ?_, rfl, rfl, ?_⟩
  · rw [h1]; decide
  · simpa [featureTableRow] using
      not_mem_colNames_dropCol (pipelineRow row ts) label_col

/-- C8: when the pre-drop steps run against a state in which the online table
or the feature table does not exist, the absence is tolerated: the drop
failure is caught and reported, the catalog state is unchanged, and the
pipeline continues (the phase is a total function and reaches its result). -/
theorem preDrop_tolerates_absence_spec (s : CatalogState) :
    (s.onlineExists = false →
        onlineDropStep s
          = (s, DropOutcome.caught "online table does not exist"))
    ∧ (s.featureExists = false →
        featureDropStep s
          = (s, DropOutcome.caught
              "Feature Table churn_feature_table doesn't exist"))
    ∧ (s.onlineExists = false → s.featureExists = false →
        preDropPhase s
          = (s, DropOutcome.caught "online table does not exist",
              DropOutcome.caught
                "Feature Table churn_feature_table doesn't exist")) := by
  refine ⟨?_, ?_, ?_⟩
  · intro h
    simp [onlineDropStep, onlineDropBody, h]
  · intro h
    simp [featureDropStep, featureDropBody, h]
  · intro h1 h2
    simp [preDropPhase, onlineDropStep, onlineDropBody, featureDropStep,
      featureDropBody, h1, h2]

/-- Witness for C8 at the state where neither table exists. -/
theorem preDrop_tolerates_absence_spec_witness :
    (CatalogState.mk false false).onlineExists = false
    ∧ (CatalogState.mk false false).featureExists = false
    ∧ preDropPhase ⟨false, false⟩
        = (⟨false, false⟩, DropOutcome.caught "online table does not exist",
            DropOutcome.caught
              "Feature Table churn_feature_table doesn't exist") := by
  refine ⟨rfl, rfl, ?_⟩
  exact (preDrop_tolerates_absence_spec ⟨false, false⟩).2.2 rfl rfl

/-- C10: `compute_service_features` adds only the `num_optional_services`
column and leaves every other column's value unchanged; `clean_churn_features`
leaves every column other than `senior_citizen`, `total_charges`, `tenure` and
`monthly_charges` unchanged (and never changes the column list), and its
metadata pass touches only the primary-key and `num_optional_services`
semantic-type tags. -/
theorem transforms_frame_spec (row : Row) (c c' c'' : String)
    (meta : String → Option String)
    (h1 : c ≠ "num_optional_services")
    (h2 : c' ∉ ["senior_citizen", "total_charges", "tenure", "monthly_charges"])
    (h3 : c'' ∉ [primary_key, "num_optional_services"]) :
    getCol (compute_service_features row) c = getCol row c
    ∧ colNames (compute_service_features row)
        = (if hasCol row "num_optional_services" then colNames row
           else colNames row ++ ["num_optional_services"])
    ∧ getCol (clean_churn_features row) c' = getCol row c'
    ∧ colNames (clean_churn_features row) = colNames row
    ∧ cleanMetadata meta c'' = meta c'' := by
  simp only [List.mem_cons, List.mem_singleton, List.not_mem_nil] at h2 h3
  push_neg at h2 h3
  obtain ⟨hsc, htc, hte, hmo, -⟩ := h2
  obtain ⟨hpk, hnos⟩ := h3
  refine ⟨?_, ?_, ?_, ?_, ?_⟩
  · exact getCol_setCol_ne row _ c _ h1
  · exact colNames_setCol row _ _
  · unfold clean_churn_features fillnaZero
    rw [getCol_updateCol_ne _ _ _ _ htc,
        getCol_updateCol_ne _ _ _ _ hmo,
        getCol_updateCol_ne _ _ _ _ hte,
        getCol_updateCol_ne _ _ _ _ hsc,
        getCol_updateCol_ne _ _ _ _ htc,
        getCol_updateCol_ne _ _ _ _ hsc]
  · unfold clean_churn_features fillnaZero
    rw [colNames_updateCol, colNames_updateCol, colNames_updateCol,
        colNames_updateCol, colNames_updateCol, colNames_updateCol]
  · simp [cleanMetadata, withMetadata, hpk, hnos]

/-- Witness for C10 at the untouched column "churn" of a concrete row. -/
theorem transforms_frame_spec_witness :
    ("churn" : String) ≠ "num_optional_services"
    ∧ ("churn" : String)
        ∉ ["senior_citizen", "total_charges", "tenure", "monthly_charges"]
    ∧ ("churn" : String) ∉ [primary_key, "num_optional_services"]
    ∧ getCol (compute_service_features [("churn", Value.str "Yes")]) "churn"
        = getCol [("churn", Value.str "Yes")] "churn"
    ∧ getCol (clean_churn_features [("churn", Value.str "Yes")]) "churn"
        = getCol [("churn", Value.str "Yes")] "churn" := by
  refine ⟨by decide, by decide, by decide, ?_, ?_⟩
  · exact (transforms_frame_spec [("churn", Value.str "Yes")] "churn" "churn"
      "churn" (fun _ => none) (by decide) (by decide) (by decide)).1
  · exact (transforms_frame_spec [("churn", Value.str "Yes")] "churn" "churn"
      "churn" (fun _ => none) (by decide) (by decide) (by decide)).2.2.1

/-- C1 (supporting evidence): within the code under src the split label is a
function of the per-row draw alone and genuinely varies with it — the same row
receives the label "train" under draw 1/2 and "test" under draw 19/20.  Hence
stability of a row's label across runs is exactly stability of the
engine-supplied `F.rand(seed=42)` draw for that row, and that draw is produced
from the partition index and the row's position within its partition, not from
the row's own identity. -/
theorem labelTableRow_varies_with_draw :
    splitLabel (3/10) = "train"
    ∧ splitLabel (19/20) = "test"
    ∧ getCol (labelTableRow [("customer_id", Value.str "A")] (3/10)) "split"
        ≠ getCol (labelTableRow [("customer_id", Value.str "A")] (19/20))
            "split" := by
  have h1 : splitLabel (3/10) = "train" := by
    norm_num [splitLabel, train_ratio]
  have h2 : splitLabel (19/20) = "test" := by
    norm_num [splitLabel, train_ratio, val_ratio]
  refine ⟨h1, h2, ?_⟩
  have e1 : getCol (labelTableRow [("customer_id", Value.str "A")] (3/10))
      "split" = Value.str "train" := by
    simp [labelTableRow, selectCols, setCol, hasCol, updateCol, dropCol,
      getCol, primary_key, timestamp_col, label_col, h1]
  have e2 : getCol (labelTableRow [("customer_id", Value.str "A")] (19/20))
      "split" = Value.str "test" := by
    simp [labelTableRow, selectCols, setCol, hasCol, updateCol, dropCol,
      getCol, primary_key, timestamp_col, label_col, h2]
  rw [e1, e2]
  intro hcontr
  exact absurd (Value.str.inj hcontr) (by decide)

end FeatureEng
